import Mathlib

/-!
Verification of the particle-system core (`src/lib.rs` of particula-rs).

The Rust core is a small orchestrator: a `ParticleSystem` trait with a
default `update`/`draw` lifecycle, a `BaseParticleSystem` backed by two
`Vec`s, the `Particle` and `ParticleEmitter` capability traits, and an
age-ratio liveness mixin (`Aging`/`MaxAging`).

Shallow embedding:
* `f64` values are modelled by `F64`: rationals extended with signed
  infinities and NaN.  Finite arithmetic is modelled exactly over `ℚ`
  (no rounding); the concrete values appearing in the claims
  (0, 1, 2, 1/2, ...) are exactly representable in IEEE binary64, where
  `f64` arithmetic on them is exact, so the model agrees with `f64` at
  every input used here.  Division by zero and comparisons involving
  NaN/∞ follow IEEE-754 semantics, which is what the age-ratio claims
  are about.
* Trait objects are modelled by records of operations (`ParticleImpl`,
  `EmitterImpl`) over an abstract state type, quantified in the
  theorems: a theorem over all `ParticleImpl`/`EmitterImpl` covers every
  Rust implementation of the corresponding trait.
* `BaseParticleSystem` is a pair of lists; `&mut`-iteration loops become
  `List.map`, `Vec::push` becomes append of a singleton, `Vec::retain`
  becomes `List.filter` (both preserve order), and the trait's default
  methods are specialised to this container exactly as `rustc` does.
-/

/-- Model of `f64`: NaN, signed infinities, and exact finite rationals. -/
inductive F64 where
  | nan : F64
  | inf : Bool → F64
  | fin : ℚ → F64
deriving DecidableEq

namespace F64

/-- IEEE addition (finite part exact). -/
def add : F64 → F64 → F64
  | nan, _ => nan
  | _, nan => nan
  | inf s₁, inf s₂ => if s₁ = s₂ then inf s₁ else nan
  | inf s, fin _ => inf s
  | fin _, inf s => inf s
  | fin a, fin b => fin (a + b)

/-- IEEE multiplication (finite part exact); `0 * ∞ = NaN`. -/
def mul : F64 → F64 → F64
  | nan, _ => nan
  | _, nan => nan
  | inf s₁, inf s₂ => inf (s₁ = s₂)
  | inf s, fin b => if b = 0 then nan else inf (s = (0 < b))
  | fin a, inf s => if a = 0 then nan else inf (s = (0 < a))
  | fin a, fin b => fin (a * b)

/-- IEEE division (finite part exact): `x / 0` is `NaN` when `x = 0` and
a signed infinity otherwise; `x / ±∞` is `0` for finite `x`. -/
def div : F64 → F64 → F64
  | nan, _ => nan
  | _, nan => nan
  | inf _, inf _ => nan
  | inf s, fin b => inf (s = (0 ≤ b))
  | fin _, inf _ => fin 0
  | fin a, fin b =>
      if b = 0 then
        if a = 0 then nan else inf (0 < a)
      else fin (a / b)

/-- IEEE `<`: any comparison with NaN is false. -/
def lt : F64 → F64 → Bool
  | nan, _ => false
  | _, nan => false
  | inf true, _ => false
  | _, inf true => true
  | _, inf false => false
  | inf false, _ => true
  | fin a, fin b => decide (a < b)

end F64

/-- The `Particle` trait (`src/lib.rs` lines 151-166) as a record of
operations over an abstract particle state `π`, with position type `pos`
and render-call type `ρ` (one render call per `draw()` invocation). -/
structure ParticleImpl (π : Type u) (pos : Type v) (ρ : Type w) where
  get_position : π → pos
  update : π → F64 → π
  draw : π → ρ
  is_alive : π → Bool

/-- The `ParticleEmitter` trait (`src/lib.rs` lines 139-148): `update`
advances the emitter state and returns the list of newly spawned
particles. -/
structure EmitterImpl (ε : Type u) (π : Type v) where
  update : ε → F64 → ε × List π
  is_alive : ε → Bool

/-- `BaseParticleSystem` (`src/lib.rs` lines 85-88): two growable
collections, one of particles and one of emitters. -/
structure BaseParticleSystem (π : Type u) (ε : Type v) where
  particles : List π
  emitters : List ε
deriving DecidableEq

namespace BaseParticleSystem

variable {π : Type u} {ε : Type v} {pos : Type x} {ρ : Type w}

/-- `BaseParticleSystem::add_particle` (lines 121-123): `Vec::push`
appends at the end. -/
def add_particle (sys : BaseParticleSystem π ε) (p : π) :
    BaseParticleSystem π ε :=
  { sys with particles := sys.particles ++ [p] }

/-- `BaseParticleSystem::add_emitter` (lines 125-127). -/
def add_emitter (sys : BaseParticleSystem π ε) (e : ε) :
    BaseParticleSystem π ε :=
  { sys with emitters := sys.emitters ++ [e] }

/-- `ParticleSystem::update_particles` (lines 35-39): call `update(dt)`
on every held particle, in container order. -/
def update_particles (P : ParticleImpl π pos ρ)
    (sys : BaseParticleSystem π ε) (dt : F64) : BaseParticleSystem π ε :=
  { sys with particles := sys.particles.map (fun p => P.update p dt) }

/-- `ParticleSystem::update_emitters` (lines 42-46): call `update(dt)`
on every held emitter, in container order, and collect (`flat_map` +
`collect`) all returned particles; the new particles are returned, not
inserted. -/
def update_emitters (E : EmitterImpl ε π)
    (sys : BaseParticleSystem π ε) (dt : F64) :
    BaseParticleSystem π ε × List π :=
  let results := sys.emitters.map (fun e => E.update e dt)
  ({ sys with emitters := results.map Prod.fst },
   (results.map Prod.snd).flatten)

/-- `BaseParticleSystem::clean_particles` (lines 129-131): `Vec::retain`
keeps, in order, exactly the elements satisfying the predicate. -/
def clean_particles (P : ParticleImpl π pos ρ)
    (sys : BaseParticleSystem π ε) : BaseParticleSystem π ε :=
  { sys with particles := sys.particles.filter (fun p => P.is_alive p) }

/-- `BaseParticleSystem::clean_emitters` (lines 133-135). -/
def clean_emitters (E : EmitterImpl ε π)
    (sys : BaseParticleSystem π ε) : BaseParticleSystem π ε :=
  { sys with emitters := sys.emitters.filter (fun e => E.is_alive e) }

/-- `ParticleSystem::update` (lines 60-71), the trait's default method
specialised to `BaseParticleSystem`: harvest the emitters, push each
collected particle, integrate all particles, cull dead particles, cull
dead emitters. -/
def update (P : ParticleImpl π pos ρ) (E : EmitterImpl ε π)
    (sys : BaseParticleSystem π ε) (dt : F64) : BaseParticleSystem π ε :=
  let r := update_emitters E sys dt
  let sys₁ := r.2.foldl add_particle r.1
  let sys₂ := update_particles P sys₁ dt
  let sys₃ := clean_particles P sys₂
  clean_emitters E sys₃

/-- `ParticleSystem::draw` (lines 74-78): one render call per held
particle, in container order. -/
def draw (P : ParticleImpl π pos ρ) (sys : BaseParticleSystem π ε) :
    List ρ :=
  sys.particles.map P.draw

/-- The state of a system update just before the first cleanup pass:
emitters harvested, pending batch admitted, all particles integrated —
`update` minus its two final `clean` calls. -/
def update_pre_cull (P : ParticleImpl π pos ρ) (E : EmitterImpl ε π)
    (sys : BaseParticleSystem π ε) (dt : F64) : BaseParticleSystem π ε :=
  let r := update_emitters E sys dt
  update_particles P (r.2.foldl add_particle r.1) dt

/-- A sequence of `update` calls, one per element of `dts`, in order. -/
def update_seq (P : ParticleImpl π pos ρ) (E : EmitterImpl ε π)
    (sys : BaseParticleSystem π ε) (dts : List F64) :
    BaseParticleSystem π ε :=
  dts.foldl (fun s dt => update P E s dt) sys

/-- Transcription of the five steps of spec §4.3 in the spec's own
terms: (1) every emitter is advanced with the same `dt` and all returned
particles are collected into one pending batch, (2) the whole batch is
appended to the particle collection, (3) every particle now held is
advanced with `update(dt)`, (4) dead particles are removed keeping
survivor order, (5) dead emitters are removed keeping survivor order.
Used only to be compared against `update`, which was translated from
the code. -/
def spec_update_phases (P : ParticleImpl π pos ρ) (E : EmitterImpl ε π)
    (sys : BaseParticleSystem π ε) (dt : F64) : BaseParticleSystem π ε :=
  let pending_batch := sys.emitters.map (fun e => (E.update e dt).2)
  let advanced_emitters := sys.emitters.map (fun e => (E.update e dt).1)
  let admitted := sys.particles ++ pending_batch.flatten
  let integrated := admitted.map (fun p => P.update p dt)
  { particles := integrated.filter (fun p => P.is_alive p),
    emitters := advanced_emitters.filter (fun e => E.is_alive e) }

end BaseParticleSystem

/-- Ghost instrumentation of a particle implementation: the state is
paired with the list of `dt` values its `update` has been invoked with,
in order.  Liveness, position and drawing ignore the ghost trace, so
the instrumented system behaves exactly like the original one. -/
def ParticleImpl.instrumented (P : ParticleImpl π pos ρ) :
    ParticleImpl (π × List F64) pos ρ where
  get_position := fun p => P.get_position p.1
  update := fun p dt => (P.update p.1 dt, p.2 ++ [dt])
  draw := fun p => P.draw p.1
  is_alive := fun p => P.is_alive p.1

namespace BaseParticleSystem

variable {π : Type u} {ε : Type v} {pos : Type x} {ρ : Type w}

theorem foldl_add_particle (sys : BaseParticleSystem π ε) (ps : List π) :
    ps.foldl add_particle sys =
      { sys with particles := sys.particles ++ ps } := by
  induction ps generalizing sys with
  | nil => simp [add_particle]
  | cons p ps ih =>
      simp only [List.foldl_cons, ih, add_particle, List.append_assoc,
        List.singleton_append]

theorem update_pre_cull_particles (P : ParticleImpl π pos ρ)
    (E : EmitterImpl ε π) (sys : BaseParticleSystem π ε) (dt : F64) :
    (update_pre_cull P E sys dt).particles =
      (sys.particles ++
        (sys.emitters.map (fun e => (E.update e dt).2)).flatten).map
        (fun p => P.update p dt) := by
  simp only [update_pre_cull, update_emitters, foldl_add_particle,
    update_particles, List.map_append, List.map_flatten, List.map_map]
  rfl

theorem update_pre_cull_emitters (P : ParticleImpl π pos ρ)
    (E : EmitterImpl ε π) (sys : BaseParticleSystem π ε) (dt : F64) :
    (update_pre_cull P E sys dt).emitters =
      sys.emitters.map (fun e => (E.update e dt).1) := by
  simp [update_pre_cull, update_emitters, foldl_add_particle,
    update_particles]

theorem update_eq_clean_pre_cull (P : ParticleImpl π pos ρ)
    (E : EmitterImpl ε π) (sys : BaseParticleSystem π ε) (dt : F64) :
    update P E sys dt =
      clean_emitters E (clean_particles P (update_pre_cull P E sys dt)) :=
  rfl

theorem update_particles_mem_is_alive (P : ParticleImpl π pos ρ)
    (E : EmitterImpl ε π) (sys : BaseParticleSystem π ε) (dt : F64)
    (p : π) (hp : p ∈ (update P E sys dt).particles) :
    P.is_alive p = true := by
  have h : p ∈ (update_pre_cull P E sys dt).particles.filter
      (fun q => P.is_alive q) := hp
  exact (List.mem_filter.mp h).2

theorem update_emitters_mem_is_alive (P : ParticleImpl π pos ρ)
    (E : EmitterImpl ε π) (sys : BaseParticleSystem π ε) (dt : F64)
    (e : ε) (he : e ∈ (update P E sys dt).emitters) :
    E.is_alive e = true := by
  have h : e ∈ ((update_pre_cull P E sys dt).emitters.filter
      (fun f => E.is_alive f)) := he
  exact (List.mem_filter.mp h).2

theorem update_seq_all_alive (P : ParticleImpl π pos ρ)
    (E : EmitterImpl ε π) (sys : BaseParticleSystem π ε) (dts : List F64)
    (h : ∀ p ∈ sys.particles, P.is_alive p = true) :
    ∀ p ∈ (update_seq P E sys dts).particles, P.is_alive p = true := by
  induction dts generalizing sys with
  | nil => exact h
  | cons dt rest ih =>
      exact ih (update P E sys dt)
        (fun p hp => update_particles_mem_is_alive P E sys dt p hp)

end BaseParticleSystem

/-- State visible through the `Aging`/`MaxAging` getters
(`src/lib.rs` lines 169-180): the current age and the maximum age. -/
structure MaxAgingState where
  age : F64
  max_age : F64
deriving DecidableEq

namespace MaxAgingState

/-- `MaxAging::get_age_percent` (lines 183-185): `age / max_age`. -/
def get_age_percent (s : MaxAgingState) : F64 :=
  F64.div s.age s.max_age

/-- `MaxAging::is_alive` (lines 188-190): alive while
`age_percent < 1.0`. -/
def is_alive (s : MaxAgingState) : Bool :=
  F64.lt s.get_age_percent (F64.fin 1)

end MaxAgingState

/-! ### Concrete trait instantiations used as test fixtures

The theorems below quantify over every `ParticleImpl`/`EmitterImpl`;
these small concrete instances serve to evaluate them on closed inputs
(and, for C3, to exhibit a behaviour the container really admits). -/

/-- Particle over state `Bool`: alive exactly when its state is `true`;
`update` leaves the state unchanged. -/
def boolP : ParticleImpl Bool Unit Unit where
  get_position _ := ()
  update p _ := p
  draw _ := ()
  is_alive p := p

/-- Particle over state `Bool`: alive exactly when its state is `true`;
`update` sets the state to `true` (so integration is observable in the
post-state). -/
def flipP : ParticleImpl Bool Unit Unit where
  get_position _ := ()
  update _ _ := true
  draw _ := ()
  is_alive p := p

/-- Emitter that never emits and never dies, over `Bool` particles. -/
def unitEB : EmitterImpl Unit Bool where
  update e _ := (e, [])
  is_alive _ := true

/-- Emitter that emits one instrumented particle `(true, [])` per
update (ghost trace empty at birth) and never dies. -/
def oneE : EmitterImpl Unit (Bool × List F64) where
  update e _ := (e, [(true, [])])
  is_alive _ := true

/-- Emitter over state `Bool` (its own liveness flag): each `update`
emits one particle `true` and leaves the emitter dead. -/
def dieE : EmitterImpl Bool Bool where
  update _ _ := (false, [true])
  is_alive e := e

/-- C1: `ParticleSystem::update(dt)` performs its phases in strict
order and never interleaved: it equals the five-phase spec transcript
`spec_update_phases` — every emitter is advanced with the same `dt` and
harvested into one pending batch, the whole batch is then appended,
then every held particle (newly admitted ones included) is advanced
with `update(dt)`, then dead particles are removed, then dead emitters
are removed.  In the functional embedding, phase ordering is function
composition, and equality with the composed phases holds for every
particle/emitter implementation, every system state, and every `dt`. -/
theorem C1_update_phase_order {π : Type u} {ε : Type v} {pos : Type x}
    {ρ : Type w} (P : ParticleImpl π pos ρ) (E : EmitterImpl ε π)
    (sys : BaseParticleSystem π ε) (dt : F64) :
    BaseParticleSystem.update P E sys dt =
      BaseParticleSystem.spec_update_phases P E sys dt := by
  rw [BaseParticleSystem.update_eq_clean_pre_cull]
  have hp := BaseParticleSystem.update_pre_cull_particles P E sys dt
  have he := BaseParticleSystem.update_pre_cull_emitters P E sys dt
  simp only [BaseParticleSystem.clean_particles,
    BaseParticleSystem.clean_emitters, BaseParticleSystem.spec_update_phases,
    hp, he]

/-- C4: `clean_particles` removes exactly the particles whose
`is_alive()` is false — the survivors are `filter is_alive` of the
original collection, a sublist of it (so relative order is preserved);
likewise `clean_emitters` for emitters. -/
theorem C4_clean_filter {π : Type u} {ε : Type v} {pos : Type x}
    {ρ : Type w} (P : ParticleImpl π pos ρ) (E : EmitterImpl ε π)
    (sys : BaseParticleSystem π ε) :
    (BaseParticleSystem.clean_particles P sys).particles =
        sys.particles.filter (fun p => P.is_alive p) ∧
    List.Sublist (BaseParticleSystem.clean_particles P sys).particles
        sys.particles ∧
    (BaseParticleSystem.clean_emitters E sys).emitters =
        sys.emitters.filter (fun e => E.is_alive e) ∧
    List.Sublist (BaseParticleSystem.clean_emitters E sys).emitters
        sys.emitters :=
  ⟨rfl, List.filter_sublist _, rfl, List.filter_sublist _⟩

/-- C8: on a container holding zero particles and zero emitters,
`update(dt)` leaves the state unchanged for every `dt`, and `draw()`
performs no render calls; both are total functions (no error). -/
theorem C8_empty_noop {π : Type u} {ε : Type v} {pos : Type x}
    {ρ : Type w} (P : ParticleImpl π pos ρ) (E : EmitterImpl ε π)
    (dt : F64) :
    BaseParticleSystem.update P E ⟨[], []⟩ dt =
        (⟨[], []⟩ : BaseParticleSystem π ε) ∧
    BaseParticleSystem.draw P (⟨[], []⟩ : BaseParticleSystem π ε) =
        ([] : List ρ) :=
  ⟨rfl, rfl⟩

/-- C9: immediately after `update(dt)` returns, every particle and
every emitter still held in the container reports `is_alive() = true`
(liveness is a pure function of state in this embedding, as the claim
assumes). -/
theorem C9_post_update_all_alive {π : Type u} {ε : Type v} {pos : Type x}
    {ρ : Type w} (P : ParticleImpl π pos ρ) (E : EmitterImpl ε π)
    (sys : BaseParticleSystem π ε) (dt : F64) :
    (∀ p ∈ (BaseParticleSystem.update P E sys dt).particles,
        P.is_alive p = true) ∧
    (∀ e ∈ (BaseParticleSystem.update P E sys dt).emitters,
        E.is_alive e = true) :=
  ⟨fun p hp => BaseParticleSystem.update_particles_mem_is_alive P E sys dt p hp,
   fun e he => BaseParticleSystem.update_emitters_mem_is_alive P E sys dt e he⟩

/-- Witness for C9 at a concrete input: the system `⟨[true], []⟩` under
`boolP`/`unitEB` keeps the particle `true` across `update 1`, and the
theorem yields its liveness. -/
theorem C9_post_update_all_alive_witness :
    (true ∈ (BaseParticleSystem.update boolP unitEB ⟨[true], []⟩
        (F64.fin 1)).particles) ∧ boolP.is_alive true = true :=
  ⟨by decide,
   (C9_post_update_all_alive boolP unitEB ⟨[true], []⟩ (F64.fin 1)).1
     true (by decide)⟩

/-- C10: `add_particle` appends at the end of the particle collection
and leaves the emitters untouched; `update_particles` and
`clean_particles` leave the emitters untouched; symmetrically
`add_emitter` appends at the end of the emitter collection, and
`add_emitter`, `update_emitters`, `clean_emitters` leave the particle
collection untouched (`update_emitters` returns the new particles
without inserting them). -/
theorem C10_collection_separation {π : Type u} {ε : Type v} {pos : Type x}
    {ρ : Type w} (P : ParticleImpl π pos ρ) (E : EmitterImpl ε π)
    (sys : BaseParticleSystem π ε) (p : π) (e : ε) (dt : F64) :
    (BaseParticleSystem.add_particle sys p).particles =
        sys.particles ++ [p] ∧
    (BaseParticleSystem.add_particle sys p).emitters = sys.emitters ∧
    (BaseParticleSystem.update_particles P sys dt).emitters =
        sys.emitters ∧
    (BaseParticleSystem.clean_particles P sys).emitters = sys.emitters ∧
    (BaseParticleSystem.add_emitter sys e).emitters =
        sys.emitters ++ [e] ∧
    (BaseParticleSystem.add_emitter sys e).particles = sys.particles ∧
    (BaseParticleSystem.update_emitters E sys dt).1.particles =
        sys.particles ∧
    (BaseParticleSystem.clean_emitters E sys).particles = sys.particles :=
  ⟨rfl, rfl, rfl, rfl, rfl, rfl, rfl, rfl⟩

/-- C2: with the ghost-trace instrumentation (each particle state
carries the list of `dt` values its `update` has received), if every
particle an emitter returns is born with an empty trace, then every
particle admitted from the pending batch during `update(dt)` — the
suffix of the pre-cull collection past the previously held particles —
has trace exactly `[dt]`: its own `update` was invoked exactly once,
with that same `dt`; and `update` itself runs both cleanup passes only
after that pre-cull state, so this happens before the first cleanup. -/
theorem C2_same_frame_admission {π : Type u} {ε : Type v} {pos : Type x}
    {ρ : Type w} (P : ParticleImpl π pos ρ)
    (E : EmitterImpl ε (π × List F64))
    (sys : BaseParticleSystem (π × List F64) ε) (dt : F64)
    (hE : ∀ e : ε, ∀ q ∈ (E.update e dt).2, q.2 = ([] : List F64)) :
    (∀ q ∈ (BaseParticleSystem.update_pre_cull P.instrumented E sys
        dt).particles.drop sys.particles.length, q.2 = [dt]) ∧
    BaseParticleSystem.update P.instrumented E sys dt =
      BaseParticleSystem.clean_emitters E
        (BaseParticleSystem.clean_particles P.instrumented
          (BaseParticleSystem.update_pre_cull P.instrumented E sys dt)) := by
  refine ⟨?_, BaseParticleSystem.update_eq_clean_pre_cull _ _ _ _⟩
  intro q hq
  rw [BaseParticleSystem.update_pre_cull_particles, List.map_append] at hq
  rw [show sys.particles.length =
      (sys.particles.map
        (fun p => P.instrumented.update p dt)).length by simp,
    List.drop_left] at hq
  rcases List.mem_map.mp hq with ⟨b, hb, rfl⟩
  rcases List.mem_flatten.mp hb with ⟨l, hl, hbl⟩
  rcases List.mem_map.mp hl with ⟨e, _, rfl⟩
  have hzero := hE e b hbl
  simp [ParticleImpl.instrumented, hzero]

/-- Witness for C2 at a concrete input: an empty system with the
emitter `oneE`, which emits one instrumented particle with empty trace;
after the pre-cull phases of `update 1` that particle carries trace
`[1]`. -/
theorem C2_same_frame_admission_witness :
    (((true, [F64.fin 1]) : Bool × List F64) ∈
      (BaseParticleSystem.update_pre_cull boolP.instrumented oneE
        ⟨[], [()]⟩ (F64.fin 1)).particles.drop
        (([] : List (Bool × List F64)).length)) ∧
    ((true, [F64.fin 1]) : Bool × List F64).2 = [F64.fin 1] :=
  ⟨by decide,
   (C2_same_frame_admission boolP oneE ⟨[], [()]⟩ (F64.fin 1)
      (fun e q hq => by
        simp only [oneE, List.mem_singleton] at hq
        rw [hq])).1 (true, [F64.fin 1]) (by decide)⟩

/-- C3 counterexample: the claim fails as stated when a particle whose
`is_alive()` is already false is held before an update (the code admits
this: `add_particle` performs no liveness check).  Concretely, under
`flipP` (alive iff state is `true`, `update` sets the state to `true`)
the system `⟨[false], []⟩` holds one particle that reports not-alive,
yet `update 1` invokes that particle's `update` — observable because
the post-state is `[true]`: the dead particle was integrated, revived,
and retained rather than removed before the cycle. -/
theorem C3_counterexample :
    flipP.is_alive false = false ∧
    (BaseParticleSystem.update flipP unitEB ⟨[false], []⟩
        (F64.fin 1)).particles = [true] :=
  ⟨rfl, by decide⟩

/-- C3 (amended): the order invariant holds provided every particle
held before the first update reports `is_alive() = true` (e.g. when
particles enter only through emitters and are integrated at birth, or
are added alive).  Then for any sequence of `update` calls, at the
start of every update of the sequence — i.e. after every prefix of it —
all held particles report `is_alive() = true`; since integration and
drawing only ever touch held particles, no particle is integrated or
drawn after its `is_alive()` would report false as of the start of that
update: it was removed by the cull pass of the update in which it
died. -/
theorem C3_order_invariant {π : Type u} {ε : Type v} {pos : Type x}
    {ρ : Type w} (P : ParticleImpl π pos ρ) (E : EmitterImpl ε π)
    (sys : BaseParticleSystem π ε) (dts : List F64)
    (h : ∀ p ∈ sys.particles, P.is_alive p = true) :
    ∀ i : ℕ, ∀ p ∈ (BaseParticleSystem.update_seq P E sys
        (dts.take i)).particles, P.is_alive p = true :=
  fun i => BaseParticleSystem.update_seq_all_alive P E sys (dts.take i) h

/-- Witness for C3 at a concrete input: starting from the all-alive
system `⟨[true], []⟩`, after the one-update prefix of `[1]` the held
particle is alive. -/
theorem C3_order_invariant_witness :
    (true ∈ (BaseParticleSystem.update_seq boolP unitEB ⟨[true], []⟩
        (([F64.fin 1]).take 1)).particles) ∧
    boolP.is_alive true = true :=
  ⟨by decide,
   C3_order_invariant boolP unitEB ⟨[true], []⟩ [F64.fin 1]
     (by decide) 1 true (by decide)⟩

/-- C5: in the age-based default liveness policy (`MaxAging`), when
`max_age` is `0.0` the computed `age_percent = age / max_age` is `+∞`
for every positive `age` and NaN when `age` is also `0`, and in both
cases `is_alive()` — the IEEE comparison `age_percent < 1.0` — is false
on the very first check, for every non-negative `age`. -/
theorem C5_zero_max_age (age : ℚ) (h : 0 ≤ age) :
    MaxAgingState.get_age_percent ⟨F64.fin age, F64.fin 0⟩ =
      (if age = 0 then F64.nan else F64.inf true) ∧
    MaxAgingState.is_alive ⟨F64.fin age, F64.fin 0⟩ = false := by
  by_cases hz : age = 0
  · subst hz
    exact ⟨rfl, rfl⟩
  · have hpos : 0 < age := lt_of_le_of_ne h (Ne.symm hz)
    constructor
    · simp [MaxAgingState.get_age_percent, F64.div, hz, hpos]
    · simp [MaxAgingState.is_alive, MaxAgingState.get_age_percent,
        F64.div, F64.lt, hz, hpos]

/-- Witness for C5 at a concrete input: `age = 2`, `max_age = 0` gives
`age_percent = +∞` and a dead particle on the first check. -/
theorem C5_zero_max_age_witness :
    (0 : ℚ) ≤ 2 ∧
    MaxAgingState.is_alive ⟨F64.fin 2, F64.fin 0⟩ = false :=
  ⟨by norm_num, (C5_zero_max_age 2 (by norm_num)).2⟩

/-- C6: during `update(dt)`, every particle returned by every held
emitter — in particular by an emitter whose `is_alive()` is false after
its final `update` call — is admitted to the particle collection (and
integrated) in the pre-cull state; emitters are removed only by the
final phase, which keeps exactly the emitters whose post-update state
is alive.  So removal never drops particles the emitter already
returned in the same update. -/
theorem C6_emitter_removal_timing {π : Type u} {ε : Type v} {pos : Type x}
    {ρ : Type w} (P : ParticleImpl π pos ρ) (E : EmitterImpl ε π)
    (sys : BaseParticleSystem π ε) (dt : F64) :
    (∀ e ∈ sys.emitters, ∀ p ∈ (E.update e dt).2,
        P.update p dt ∈
          (BaseParticleSystem.update_pre_cull P E sys dt).particles) ∧
    (BaseParticleSystem.update P E sys dt).emitters =
      (sys.emitters.map (fun e => (E.update e dt).1)).filter
        (fun e => E.is_alive e) ∧
    BaseParticleSystem.update P E sys dt =
      BaseParticleSystem.clean_emitters E
        (BaseParticleSystem.clean_particles P
          (BaseParticleSystem.update_pre_cull P E sys dt)) := by
  refine ⟨?_, ?_, BaseParticleSystem.update_eq_clean_pre_cull _ _ _ _⟩
  · intro e he p hp
    rw [BaseParticleSystem.update_pre_cull_particles]
    refine List.mem_map.mpr ⟨p, ?_, rfl⟩
    refine List.mem_append.mpr (Or.inr ?_)
    exact List.mem_flatten.mpr
      ⟨(E.update e dt).2, List.mem_map.mpr ⟨e, he, rfl⟩, hp⟩
  · rw [BaseParticleSystem.update_eq_clean_pre_cull]
    show ((BaseParticleSystem.update_pre_cull P E sys dt).emitters.filter
      (fun e => E.is_alive e)) = _
    rw [BaseParticleSystem.update_pre_cull_emitters]

/-- Witness for C6 at a concrete input: the emitter `dieE` starts
alive, returns the particle `true` from its final update and is dead
afterwards; that particle is present (integrated) in the pre-cull
state of `update 1` on `⟨[], [true]⟩`. -/
theorem C6_emitter_removal_timing_witness :
    (true ∈ (BaseParticleSystem.mk ([] : List Bool) [true]).emitters) ∧
    (true ∈ (dieE.update true (F64.fin 1)).2) ∧
    boolP.update true (F64.fin 1) ∈
      (BaseParticleSystem.update_pre_cull boolP dieE ⟨[], [true]⟩
        (F64.fin 1)).particles :=
  ⟨by decide, by decide,
   (C6_emitter_removal_timing boolP dieE ⟨[], [true]⟩ (F64.fin 1)).1
     true (by decide) true (by decide)⟩



/-- Concrete particle for the end-to-end scenario: the `BaseParticle`
of `examples/explosion.rs` (position, velocity, age, max age; Euler
`update`: `position += velocity * dt; age += dt`), with liveness given
by the age-based `MaxAging` policy of `src/lib.rs` as the scenario
requires. -/
structure BaseParticle where
  position : F64 × F64
  velocity : F64 × F64
  age : F64
  max_age : F64
deriving DecidableEq

/-- The `Particle` implementation of `BaseParticle`; `draw` renders at
the particle's position. -/
def baseParticleImpl : ParticleImpl BaseParticle (F64 × F64) (F64 × F64) where
  get_position p := p.position
  update p dt :=
    { p with
        position := (p.position.1.add (p.velocity.1.mul dt),
                     p.position.2.add (p.velocity.2.mul dt)),
        age := p.age.add dt }
  draw p := p.position
  is_alive p := MaxAgingState.is_alive ⟨p.age, p.max_age⟩

/-- The scenario's particle at birth: fixed origin, zero velocity,
age `0`, `max_age = 2.0`. -/
def originParticle : BaseParticle where
  position := (F64.fin 0, F64.fin 0)
  velocity := (F64.fin 0, F64.fin 0)
  age := F64.fin 0
  max_age := F64.fin 2

/-- The scenario's emitter: emits exactly one `originParticle` per
update and never dies. -/
def oneShotE : EmitterImpl Unit BaseParticle where
  update e _ := (e, [originParticle])
  is_alive _ := true

/-- C7: end-to-end scenario.  With one always-alive emitter that emits
one particle per update (age `0`, `max_age = 2.0`, zero velocity,
age-based liveness), after `update 1` the system holds exactly the one
emitted particle, integrated to age `1` and alive; after a second
`update 1` the first particle — now at age `2`, `age_percent = 1 ≥ 1` —
is culled (it is not alive) while the newly emitted one is admitted and
integrated to age `1`, so the count is `1` again. -/
theorem C7_end_to_end :
    (BaseParticleSystem.update baseParticleImpl oneShotE ⟨[], [()]⟩
        (F64.fin 1)).particles =
      [{ originParticle with age := F64.fin 1 }] ∧
    baseParticleImpl.is_alive { originParticle with age := F64.fin 1 } =
      true ∧
    (BaseParticleSystem.update baseParticleImpl oneShotE
        (BaseParticleSystem.update baseParticleImpl oneShotE ⟨[], [()]⟩
          (F64.fin 1)) (F64.fin 1)).particles =
      [{ originParticle with age := F64.fin 1 }] ∧
    baseParticleImpl.is_alive { originParticle with age := F64.fin 2 } =
      false := by
  refine ⟨?_, ?_, ?_, ?_⟩ <;>
    norm_num [BaseParticleSystem.update, BaseParticleSystem.update_emitters,
      BaseParticleSystem.update_particles, BaseParticleSystem.clean_particles,
      BaseParticleSystem.clean_emitters, BaseParticleSystem.add_particle,
      baseParticleImpl, oneShotE, originParticle, F64.add, F64.mul, F64.div,
      F64.lt, MaxAgingState.is_alive, MaxAgingState.get_age_percent]
